import Mathlib

/-!
Verification of the connection-gated request/response correlation engine of
the smoke-node hub client (src/packages/smoke-node/src/hub/network/client.ts,
class NetworkHub).

The client state is embedded shallowly: the Barrier (Connection Gate) is an
open flag plus a FIFO queue of waiting calls, the Deferred (Correlation
Table) is the list of pending request identifiers, and the Binding is an
optional address/configuration pair.  The classes Barrier, Deferred and
Events are imported by client.ts from ../../async and their code is not part
of the sources under verification; they are modelled from the specification
(sections 4.1, 4.2 and 9 of the spec), as marked on each definition.
Everything else is translated from client.ts.

Observable effects (socket sends, correlation-slot completions, emitted
events, exceptions escaping a handler) are collected as lists of `Ev`.
-/

/-- The Binding payload of the handshake message: the address assigned to the
client and the RTC configuration (opaque here). -/
structure Binding where
  address : String
  configuration : String
deriving DecidableEq

/-- The wire message union of client.ts (type Message): tagged by the
discriminant string, with `unknownTag` standing for any frame whose
discriminant matches no known variant. -/
inductive Message where
  | binding (address : String) (configuration : String)
  | forward (dest : String) (from_ : String) (data : String)
  | register (request_id : Nat) (hostname : String)
  | registerOk (request_id : Nat) (payload : String)
  | registerFail (request_id : Nat) (reason : String)
  | lookup (request_id : Nat) (hostname : String)
  | lookupOk (request_id : Nat) (payload : String)
  | lookupFail (request_id : Nat) (reason : String)
  | unknownTag (tag : String)
deriving DecidableEq

/-- The public gated operations of NetworkHub. -/
inductive Call where
  | register (hostname : String)
  | lookup (hostname : String)
  | forward (dest : String) (data : String)
  | address
  | configuration
deriving DecidableEq

/-- Observable effects of a step: a socket send, a correlation slot resolved
or rejected, a double wait on a registered identifier, an emitted push or
error event, a returned accessor value, or an exception escaping the handler
(failed JSON decode, or reading the address of an undefined binding). -/
inductive Ev where
  | send (m : Message)
  | resolved (id : Nat) (m : Message)
  | rejected (id : Nat) (reason : String)
  | waitErr (id : Nat)
  | emitForward (m : Message)
  | emitError
  | got (value : String)
  | throwParse
  | throwNoBinding
deriving DecidableEq

/-- An inbound transport frame: either a decodable message or one whose
payload is malformed JSON. -/
inductive Frame where
  | malformed
  | msg (m : Message)
deriving DecidableEq

/-- The three socket callbacks registered in the NetworkHub constructor. -/
inductive SocketEvent where
  | message (f : Frame)
  | error
  | close
deriving DecidableEq

/-- The state owned by a NetworkHub instance: the barrier open flag and its
FIFO queue of waiting calls, the current binding (none until the first
handshake), the request_id counter, and the pending identifiers of the
deferred correlation table. -/
structure ClientState where
  opened : Bool
  queue : List Call
  binding : Option Binding
  request_id : Nat
  pending : List Nat
deriving DecidableEq

/-- The state right after the NetworkHub constructor: gate closed, no
binding, request_id 0, nothing pending. -/
def initialState : ClientState :=
  { opened := false, queue := [], binding := none, request_id := 0, pending := [] }

/-- Modelled from the spec: Deferred.wait (class Deferred of ../../async,
not under the verified sources).  Registers a completion slot for the
identifier; fails the caller only if the identifier is already registered. -/
def deferredWait (s : ClientState) (id : Nat) : ClientState × List Ev :=
  if id ∈ s.pending then (s, [Ev.waitErr id])
  else ({ s with pending := s.pending ++ [id] }, [])

/-- Modelled from the spec: Deferred.resolve (class Deferred of ../../async,
not under the verified sources).  Completes and removes the slot; a silent
no-op when no slot exists for the identifier. -/
def deferredResolve (s : ClientState) (id : Nat) (m : Message) :
    ClientState × List Ev :=
  if id ∈ s.pending then
    ({ s with pending := s.pending.erase id }, [Ev.resolved id m])
  else (s, [])

/-- Modelled from the spec: Deferred.reject (class Deferred of ../../async,
not under the verified sources).  Completes the slot with the reason and
removes it; a silent no-op when no slot exists for the identifier. -/
def deferredReject (s : ClientState) (id : Nat) (reason : String) :
    ClientState × List Ev :=
  if id ∈ s.pending then
    ({ s with pending := s.pending.erase id }, [Ev.rejected id reason])
  else (s, [])

/-- The bodies of the gated operations (client.ts lines 99 to 135), run once
the barrier admits them.  register and lookup take the next request_id, send
the request and wait on the deferred slot; forward sends with from equal to
the current binding address; address and configuration read the binding.
Reading a field of an undefined binding throws. -/
def executeCall (s : ClientState) : Call → ClientState × List Ev
  | Call.register hostname =>
      let id := s.request_id
      let t := { s with request_id := id + 1 }
      let w := deferredWait t id
      (w.1, Ev.send (Message.register id hostname) :: w.2)
  | Call.lookup hostname =>
      let id := s.request_id
      let t := { s with request_id := id + 1 }
      let w := deferredWait t id
      (w.1, Ev.send (Message.lookup id hostname) :: w.2)
  | Call.forward dest data =>
      match s.binding with
      | some b => (s, [Ev.send (Message.forward dest b.address data)])
      | none => (s, [Ev.throwNoBinding])
  | Call.address =>
      match s.binding with
      | some b => (s, [Ev.got b.address])
      | none => (s, [Ev.throwNoBinding])
  | Call.configuration =>
      match s.binding with
      | some b => (s, [Ev.got b.configuration])
      | none => (s, [Ev.throwNoBinding])

/-- Modelled from the spec: Barrier.run (class Barrier of ../../async, not
under the verified sources).  When the gate is open the action executes
immediately; when closed the caller is queued in arrival order.  This is the
entry point of every public NetworkHub operation. -/
def call (s : ClientState) (c : Call) : ClientState × List Ev :=
  if s.opened then executeCall s c
  else ({ s with queue := s.queue ++ [c] }, [])

/-- Modelled from the spec: the queue drain performed by Barrier.resume,
executing the waiting actions in FIFO order. -/
def drain : ClientState → List Call → ClientState × List Ev
  | s, [] => (s, [])
  | s, c :: cs =>
      let r := executeCall s c
      let rest := drain r.1 cs
      (rest.1, r.2 ++ rest.2)

/-- Modelled from the spec: Barrier.resume (class Barrier of ../../async,
not under the verified sources).  Opens the gate and drains the queue in
FIFO order. -/
def resume (s : ClientState) : ClientState × List Ev :=
  drain { s with opened := true, queue := [] } s.queue

/-- Modelled from the spec: Barrier.pause (class Barrier of ../../async, not
under the verified sources).  Closes the gate; everything else untouched. -/
def pause (s : ClientState) : ClientState :=
  { s with opened := false }

/-- The onMessage dispatch of client.ts (lines 138 to 148) together with the
private handlers (lines 151 to 179): binding sets the binding then resumes
the barrier; forward is emitted to subscribers; the ok and fail responses
resolve or reject the deferred slot; a tag without a case falls through the
switch as a no-op; a malformed payload makes JSON.parse throw out of the
handler before any state is touched. -/
def dispatch (s : ClientState) : Frame → ClientState × List Ev
  | Frame.malformed => (s, [Ev.throwParse])
  | Frame.msg (Message.binding a c) =>
      resume { s with binding := some { address := a, configuration := c } }
  | Frame.msg (Message.forward dest f d) =>
      (s, [Ev.emitForward (Message.forward dest f d)])
  | Frame.msg (Message.registerOk id p) =>
      deferredResolve s id (Message.registerOk id p)
  | Frame.msg (Message.registerFail id r) => deferredReject s id r
  | Frame.msg (Message.lookupOk id p) =>
      deferredResolve s id (Message.lookupOk id p)
  | Frame.msg (Message.lookupFail id r) => deferredReject s id r
  | Frame.msg (Message.register _ _) => (s, [])
  | Frame.msg (Message.lookup _ _) => (s, [])
  | Frame.msg (Message.unknownTag _) => (s, [])

/-- The socket callbacks of the NetworkHub constructor: onMessage dispatches
the frame, onError emits an error event, onClose pauses the barrier. -/
def handleEvent (s : ClientState) : SocketEvent → ClientState × List Ev
  | SocketEvent.message f => dispatch s f
  | SocketEvent.error => (s, [Ev.emitError])
  | SocketEvent.close => (pause s, [])

/-- One step of the client: either a public call or a socket event. -/
inductive Step where
  | call (c : Call)
  | sock (e : SocketEvent)
deriving DecidableEq

/-- Step semantics of the client. -/
def step (s : ClientState) : Step → ClientState × List Ev
  | Step.call c => call s c
  | Step.sock e => handleEvent s e

/-- Run a sequence of public calls, accumulating effects. -/
def runCalls : ClientState → List Call → ClientState × List Ev
  | s, [] => (s, [])
  | s, c :: cs =>
      let r := call s c
      let rest := runCalls r.1 cs
      (rest.1, r.2 ++ rest.2)

/-- Run a sequence of inbound frames, accumulating effects. -/
def runFrames : ClientState → List Frame → ClientState × List Ev
  | s, [] => (s, [])
  | s, f :: fs =>
      let r := dispatch s f
      let rest := runFrames r.1 fs
      (rest.1, r.2 ++ rest.2)

/-- Run a sequence of steps, accumulating effects. -/
def runSteps : ClientState → List Step → ClientState × List Ev
  | s, [] => (s, [])
  | s, t :: ts =>
      let r := step s t
      let rest := runSteps r.1 ts
      (rest.1, r.2 ++ rest.2)

/-- States reachable from the freshly constructed client. -/
inductive Reached : ClientState → Prop
  | init : Reached initialState
  | next (s : ClientState) (t : Step) : Reached s → Reached (step s t).1

/-- Number of socket sends in an effect list. -/
def sends (es : List Ev) : Nat :=
  (es.filter fun e => match e with | Ev.send _ => true | _ => false).length

/-- How many sends a call performs once admitted: one for register, lookup
and forward, none for the accessors. -/
def sendsOfCall : Call → Nat
  | Call.register _ => 1
  | Call.lookup _ => 1
  | Call.forward _ _ => 1
  | Call.address => 0
  | Call.configuration => 0

/-- The correlation identifiers carried by the request sends of an effect
list, in send order. -/
def assignedIds (es : List Ev) : List Nat :=
  es.filterMap fun e =>
    match e with
    | Ev.send (Message.register id _) => some id
    | Ev.send (Message.lookup id _) => some id
    | _ => none

/-- Whether a call is a correlated request (register or lookup). -/
def isCorrelated : Call → Bool
  | Call.register _ => true
  | Call.lookup _ => true
  | _ => false

/-- Whether an effect is an event emitted to subscribers. -/
def isEmit : Ev → Bool
  | Ev.emitForward _ => true
  | Ev.emitError => true
  | _ => false

/-- The state after the first handshake on a fresh client. -/
def afterBinding (a c : String) : ClientState :=
  (dispatch initialState (Frame.msg (Message.binding a c))).1

/-! Basic preservation lemmas for the state components. -/

@[simp]
theorem deferredWait_opened (s : ClientState) (id : Nat) :
    (deferredWait s id).1.opened = s.opened := by
  unfold deferredWait; split <;> rfl

@[simp]
theorem deferredWait_binding (s : ClientState) (id : Nat) :
    (deferredWait s id).1.binding = s.binding := by
  unfold deferredWait; split <;> rfl

@[simp]
theorem deferredWait_queue (s : ClientState) (id : Nat) :
    (deferredWait s id).1.queue = s.queue := by
  unfold deferredWait; split <;> rfl

@[simp]
theorem deferredWait_request_id (s : ClientState) (id : Nat) :
    (deferredWait s id).1.request_id = s.request_id := by
  unfold deferredWait; split <;> rfl

@[simp]
theorem deferredResolve_opened (s : ClientState) (id : Nat) (m : Message) :
    (deferredResolve s id m).1.opened = s.opened := by
  unfold deferredResolve; split <;> rfl

@[simp]
theorem deferredResolve_binding (s : ClientState) (id : Nat) (m : Message) :
    (deferredResolve s id m).1.binding = s.binding := by
  unfold deferredResolve; split <;> rfl

@[simp]
theorem deferredReject_opened (s : ClientState) (id : Nat) (r : String) :
    (deferredReject s id r).1.opened = s.opened := by
  unfold deferredReject; split <;> rfl

@[simp]
theorem deferredReject_binding (s : ClientState) (id : Nat) (r : String) :
    (deferredReject s id r).1.binding = s.binding := by
  unfold deferredReject; split <;> rfl

@[simp]
theorem executeCall_opened (s : ClientState) (c : Call) :
    (executeCall s c).1.opened = s.opened := by
  cases c <;> cases hb : s.binding <;> simp [executeCall, hb]

@[simp]
theorem executeCall_binding (s : ClientState) (c : Call) :
    (executeCall s c).1.binding = s.binding := by
  cases c <;> cases hb : s.binding <;> simp [executeCall, hb]

theorem executeCall_request_id_le (s : ClientState) (c : Call) :
    s.request_id ≤ (executeCall s c).1.request_id := by
  cases c <;> cases hb : s.binding <;> simp [executeCall, hb]

theorem drain_opened (cs : List Call) (s : ClientState) :
    (drain s cs).1.opened = s.opened := by
  induction cs generalizing s with
  | nil => rfl
  | cons c cs ih => simp [drain, ih]

theorem drain_binding (cs : List Call) (s : ClientState) :
    (drain s cs).1.binding = s.binding := by
  induction cs generalizing s with
  | nil => rfl
  | cons c cs ih => simp [drain, ih]

theorem call_closed (s : ClientState) (c : Call) (h : s.opened = false) :
    call s c = ({ s with queue := s.queue ++ [c] }, []) := by
  simp [call, h]

/-! Effect lemmas: sends, identifiers, and absence of undefined-binding
reads. -/

@[simp]
theorem sends_append (a b : List Ev) : sends (a ++ b) = sends a + sends b := by
  simp [sends, List.filter_append]

@[simp]
theorem assignedIds_append (a b : List Ev) :
    assignedIds (a ++ b) = assignedIds a ++ assignedIds b := by
  simp [assignedIds, List.filterMap_append]

theorem executeCall_no_throwNoBinding (s : ClientState) (c : Call)
    (hb : s.binding.isSome = true) :
    Ev.throwNoBinding ∉ (executeCall s c).2 := by
  cases c <;> cases hv : s.binding <;>
    simp_all [executeCall, deferredWait] <;> split <;> simp

theorem drain_no_throwNoBinding (cs : List Call) (s : ClientState)
    (hb : s.binding.isSome = true) :
    Ev.throwNoBinding ∉ (drain s cs).2 := by
  induction cs generalizing s with
  | nil => simp [drain]
  | cons c cs ih =>
      simp only [drain, List.mem_append]
      push_neg
      refine ⟨executeCall_no_throwNoBinding s c hb, ih _ ?_⟩
      rw [executeCall_binding]; exact hb

theorem sends_executeCall (s : ClientState) (c : Call)
    (hb : s.binding.isSome = true) :
    sends (executeCall s c).2 = sendsOfCall c := by
  cases c <;> cases hv : s.binding <;>
    simp_all [executeCall, deferredWait, sendsOfCall, sends] <;> split <;> simp

theorem sends_drain (cs : List Call) (s : ClientState)
    (hb : s.binding.isSome = true) :
    sends (drain s cs).2 = (cs.map sendsOfCall).sum := by
  induction cs generalizing s with
  | nil => simp [drain, sends]
  | cons c cs ih =>
      simp only [drain, List.map_cons, List.sum_cons, sends_append]
      rw [sends_executeCall s c hb, ih]
      rw [executeCall_binding]; exact hb

theorem assignedIds_executeCall (s : ClientState) (c : Call)
    (hc : isCorrelated c = true) :
    assignedIds (executeCall s c).2 = [s.request_id] ∧
    (executeCall s c).1.request_id = s.request_id + 1 := by
  cases c <;> simp_all [executeCall, deferredWait, isCorrelated, assignedIds] <;>
    split <;> simp [assignedIds]

theorem assignedIds_runCalls (ops : List Call) (s : ClientState)
    (ho : s.opened = true) (hc : ∀ c ∈ ops, isCorrelated c = true) :
    assignedIds (runCalls s ops).2 = List.range' s.request_id ops.length ∧
    (runCalls s ops).1.request_id = s.request_id + ops.length := by
  induction ops generalizing s with
  | nil => simp [runCalls, assignedIds]
  | cons c cs ih =>
      have hcall : call s c = executeCall s c := by simp [call, ho]
      have hids := assignedIds_executeCall s c (hc c (by simp))
      have hop : (executeCall s c).1.opened = true := by
        rw [executeCall_opened]; exact ho
      have ihr := ih (executeCall s c).1 hop (fun d hd => hc d (by simp [hd]))
      simp only [runCalls, hcall, assignedIds_append, hids.1, ihr.1, ihr.2,
        hids.2, List.length_cons, List.range'_succ]
      constructor
      · rfl
      · omega

theorem step_request_id_le (s : ClientState) (t : Step) :
    s.request_id ≤ (step s t).1.request_id := by
  have hdrain : ∀ (cs : List Call) (u : ClientState),
      u.request_id ≤ (drain u cs).1.request_id := by
    intro cs
    induction cs with
    | nil => intro u; simp [drain]
    | cons c cs ih =>
        intro u
        calc u.request_id ≤ (executeCall u c).1.request_id :=
              executeCall_request_id_le u c
          _ ≤ (drain (executeCall u c).1 cs).1.request_id := ih _
  cases t with
  | call c =>
      simp only [step, call]
      split
      · exact executeCall_request_id_le s c
      · exact Nat.le_refl _
  | sock e =>
      cases e with
      | message f =>
          cases f with
          | malformed => exact Nat.le_refl _
          | msg m =>
              cases m with
              | binding a cfg =>
                  simp only [step, handleEvent, dispatch, resume]
                  exact hdrain s.queue (ClientState.mk true []
                    (some (Binding.mk a cfg)) s.request_id s.pending)
              | _ =>
                  simp [step, handleEvent, dispatch, deferredResolve,
                    deferredReject] <;> (try split) <;> simp
      | error => exact Nat.le_refl _
      | close => exact Nat.le_refl _

/-! The gate invariant: whenever the gate is open, a binding has been
assigned.  The binding is written before the barrier is resumed in
onBinding, and only onBinding resumes the barrier. -/

/-- The gate open flag implies a defined binding. -/
def GateInv (s : ClientState) : Prop :=
  s.opened = true → s.binding.isSome = true

theorem step_preserves_GateInv (s : ClientState) (t : Step)
    (h : GateInv s) : GateInv (step s t).1 := by
  cases t with
  | call c =>
      intro hop
      simp only [step, call] at hop ⊢
      cases hso : s.opened with
      | true =>
          rw [if_pos rfl]
          rw [executeCall_binding]
          exact h hso
      | false =>
          rw [if_neg (by simp [hso])] at hop
          have hopen : s.opened = true := hop
          rw [hso] at hopen
          exact absurd hopen (by simp)
  | sock e =>
      cases e with
      | message f =>
          cases f with
          | malformed => exact h
          | msg m =>
              cases m with
              | binding a cfg =>
                  intro _
                  simp only [step, handleEvent, dispatch, resume]
                  rw [drain_binding]
                  rfl
              | forward d f da => exact h
              | register i hn => exact h
              | lookup i hn => exact h
              | registerOk i p =>
                  intro hop
                  simp only [step, handleEvent, dispatch] at hop ⊢
                  rw [deferredResolve_binding]
                  rw [deferredResolve_opened] at hop
                  exact h hop
              | lookupOk i p =>
                  intro hop
                  simp only [step, handleEvent, dispatch] at hop ⊢
                  rw [deferredResolve_binding]
                  rw [deferredResolve_opened] at hop
                  exact h hop
              | registerFail i r =>
                  intro hop
                  simp only [step, handleEvent, dispatch] at hop ⊢
                  rw [deferredReject_binding]
                  rw [deferredReject_opened] at hop
                  exact h hop
              | lookupFail i r =>
                  intro hop
                  simp only [step, handleEvent, dispatch] at hop ⊢
                  rw [deferredReject_binding]
                  rw [deferredReject_opened] at hop
                  exact h hop
              | unknownTag t => exact h
      | error => exact h
      | close =>
          intro hop
          simp [step, handleEvent, pause] at hop

theorem reached_GateInv (s : ClientState) (h : Reached s) : GateInv s := by
  induction h with
  | init => intro hop; simp [initialState] at hop
  | next s t _ ih => exact step_preserves_GateInv s t ih

theorem step_no_throwNoBinding (s : ClientState) (t : Step)
    (h : GateInv s) : Ev.throwNoBinding ∉ (step s t).2 := by
  cases t with
  | call c =>
      simp only [step, call]
      split
      · exact executeCall_no_throwNoBinding s c (h (by assumption))
      · simp
  | sock e =>
      cases e with
      | message f =>
          cases f with
          | malformed => simp [step, handleEvent, dispatch]
          | msg m =>
              cases m with
              | binding a cfg =>
                  simp only [step, handleEvent, dispatch, resume]
                  exact drain_no_throwNoBinding s.queue _ (by simp)
              | registerOk i p =>
                  simp only [step, handleEvent, dispatch, deferredResolve]
                  split <;> simp
              | lookupOk i p =>
                  simp only [step, handleEvent, dispatch, deferredResolve]
                  split <;> simp
              | registerFail i r =>
                  simp only [step, handleEvent, dispatch, deferredReject]
                  split <;> simp
              | lookupFail i r =>
                  simp only [step, handleEvent, dispatch, deferredReject]
                  split <;> simp
              | _ => simp [step, handleEvent, dispatch]
      | error => simp [step, handleEvent]
      | close => simp [step, handleEvent]

theorem step_opened_source (u : ClientState) (t : Step)
    (h : (step u t).1.opened = true) :
    u.opened = true ∨ ∃ a cfg,
      t = Step.sock (SocketEvent.message (Frame.msg (Message.binding a cfg))) := by
  cases t with
  | call c =>
      left
      simp only [step, call] at h
      split at h
      · rw [executeCall_opened] at h; exact h
      · exact h
  | sock e =>
      cases e with
      | message f =>
          cases f with
          | malformed => left; exact h
          | msg m =>
              cases m with
              | binding a cfg => exact Or.inr ⟨a, cfg, rfl⟩
              | registerOk i p =>
                  left
                  simp only [step, handleEvent, dispatch] at h
                  rw [deferredResolve_opened] at h; exact h
              | lookupOk i p =>
                  left
                  simp only [step, handleEvent, dispatch] at h
                  rw [deferredResolve_opened] at h; exact h
              | registerFail i r =>
                  left
                  simp only [step, handleEvent, dispatch] at h
                  rw [deferredReject_opened] at h; exact h
              | lookupFail i r =>
                  left
                  simp only [step, handleEvent, dispatch] at h
                  rw [deferredReject_opened] at h; exact h
              | _ => left; exact h
      | error => left; exact h
      | close => simp [step, handleEvent, pause] at h

theorem afterBinding_eq (a cfg : String) :
    afterBinding a cfg
      = ClientState.mk true [] (some (Binding.mk a cfg)) 0 [] := rfl

/-- A concrete state with two in-flight requests, used as a witness input. -/
def pendingTwo : ClientState :=
  ClientState.mk true [] (some (Binding.mk "a" "c")) 2 [0, 1]

/-! Claim theorems. -/

/-- Claim C1, counterexample: the claim is false as stated. An address call
issued while the gate is closed does proceed once the handshake is
processed (it returns the bound address), but it performs zero sends on the
transport, not exactly one. -/
theorem C1_counterexample :
    (call initialState Call.address).2 = [] ∧
    (dispatch (call initialState Call.address).1
        (Frame.msg (Message.binding "a" "c"))).2 = [Ev.got "a"] ∧
    sends (dispatch (call initialState Call.address).1
        (Frame.msg (Message.binding "a" "c"))).2 = 0 :=
  ⟨rfl, rfl, rfl⟩

/-- Claim C1, amended: the gate starts closed; a register, lookup, forward,
address or configuration call issued while the gate is closed has no
observable effect (in particular nothing is sent on the transport) and is
appended to the gate queue; when a handshake message is then processed the
whole queue proceeds in order, register, lookup and forward calls each
performing exactly one send and address and configuration calls none. -/
theorem C1_gated_sends (s : ClientState) (c : Call) (a cfg : String)
    (h : s.opened = false) :
    initialState.opened = false ∧
    (call s c).2 = [] ∧
    (call s c).1.queue = s.queue ++ [c] ∧
    sends (dispatch (call s c).1 (Frame.msg (Message.binding a cfg))).2
      = (((call s c).1.queue).map sendsOfCall).sum := by
  rw [call_closed s c h]
  refine ⟨rfl, rfl, rfl, ?_⟩
  simp only [dispatch, resume]
  exact sends_drain _ _ rfl

/-- Witness for C1 at a fresh client and a register call. -/
theorem C1_gated_sends_witness :
    initialState.opened = false ∧
    (call initialState (Call.register "alice")).2 = [] ∧
    (call initialState (Call.register "alice")).1.queue
      = initialState.queue ++ [Call.register "alice"] ∧
    sends (dispatch (call initialState (Call.register "alice")).1
        (Frame.msg (Message.binding "a" "c"))).2
      = (((call initialState (Call.register "alice")).1.queue).map
          sendsOfCall).sum :=
  C1_gated_sends initialState (Call.register "alice") "a" "c" rfl

/-- Claim C2: register and lookup draw correlation identifiers from one
shared counter: any sequence of such calls on a fresh client, issued after
its handshake and before any response arrives, is assigned the identifiers
0, 1, 2, ... in order (strictly increasing from 0, no repeats); moreover no
step of the client ever decreases the counter, so an identifier is never
reassigned for the lifetime of the instance. -/
theorem C2_identifiers (a cfg : String) (ops : List Call)
    (hc : ∀ c ∈ ops, isCorrelated c = true) :
    assignedIds (runCalls (afterBinding a cfg) ops).2
      = List.range ops.length ∧
    ∀ (u : ClientState) (t : Step),
      u.request_id ≤ (step u t).1.request_id := by
  refine ⟨?_, step_request_id_le⟩
  rw [(assignedIds_runCalls ops (afterBinding a cfg) rfl hc).1,
    List.range_eq_range']
  rfl

/-- Witness for C2 with a register call followed by a lookup call. -/
theorem C2_identifiers_witness :
    assignedIds (runCalls (afterBinding "a" "c")
        [Call.register "alice", Call.lookup "bob"]).2
      = List.range 2 ∧
    ∀ (u : ClientState) (t : Step),
      u.request_id ≤ (step u t).1.request_id :=
  C2_identifiers "a" "c" [Call.register "alice", Call.lookup "bob"]
    (by decide)

/-- Claim C3: a register-ok, respectively lookup-ok, response carrying
request_id k resolves exactly the pending entry k, with the full message as
its payload, and removes it; every other pending identifier keeps its
membership in the correlation table, and the gate flag, queue, binding and
counter are untouched, so in-flight requests complete independently of
arrival order. -/
theorem C3_response_routing (s : ClientState) (k : Nat) (p q : String)
    (hk : k ∈ s.pending) :
    (dispatch s (Frame.msg (Message.registerOk k p))
        = ({ s with pending := s.pending.erase k },
           [Ev.resolved k (Message.registerOk k p)]) ∧
      ∀ j, j ≠ k →
        (j ∈ (dispatch s (Frame.msg (Message.registerOk k p))).1.pending
          ↔ j ∈ s.pending)) ∧
    (dispatch s (Frame.msg (Message.lookupOk k q))
        = ({ s with pending := s.pending.erase k },
           [Ev.resolved k (Message.lookupOk k q)]) ∧
      ∀ j, j ≠ k →
        (j ∈ (dispatch s (Frame.msg (Message.lookupOk k q))).1.pending
          ↔ j ∈ s.pending)) := by
  have e1 : dispatch s (Frame.msg (Message.registerOk k p))
      = ({ s with pending := s.pending.erase k },
         [Ev.resolved k (Message.registerOk k p)]) := by
    simp [dispatch, deferredResolve, hk]
  have e2 : dispatch s (Frame.msg (Message.lookupOk k q))
      = ({ s with pending := s.pending.erase k },
         [Ev.resolved k (Message.lookupOk k q)]) := by
    simp [dispatch, deferredResolve, hk]
  refine ⟨⟨e1, ?_⟩, e2, ?_⟩
  · intro j hj; rw [e1]; exact List.mem_erase_of_ne hj
  · intro j hj; rw [e2]; exact List.mem_erase_of_ne hj

/-- Witness for C3 at a state with pending entries 0 and 1. -/
theorem C3_response_routing_witness :
    (dispatch pendingTwo (Frame.msg (Message.registerOk 0 "p"))
        = ({ pendingTwo with pending := pendingTwo.pending.erase 0 },
           [Ev.resolved 0 (Message.registerOk 0 "p")]) ∧
      ∀ j, j ≠ 0 →
        (j ∈ (dispatch pendingTwo
            (Frame.msg (Message.registerOk 0 "p"))).1.pending
          ↔ j ∈ pendingTwo.pending)) ∧
    (dispatch pendingTwo (Frame.msg (Message.lookupOk 0 "q"))
        = ({ pendingTwo with pending := pendingTwo.pending.erase 0 },
           [Ev.resolved 0 (Message.lookupOk 0 "q")]) ∧
      ∀ j, j ≠ 0 →
        (j ∈ (dispatch pendingTwo
            (Frame.msg (Message.lookupOk 0 "q"))).1.pending
          ↔ j ∈ pendingTwo.pending)) :=
  C3_response_routing pendingTwo 0 "p" "q" (by decide)

/-- Claim C4, counterexample: the claim is false as stated. The handler does
not surface a decoding failure as an observable diagnostic event: processing
a malformed frame emits nothing to subscribers; the JSON.parse exception
simply escapes the handler. -/
theorem C4_counterexample :
    (dispatch initialState Frame.malformed).2.filter isEmit = [] ∧
    (dispatch initialState Frame.malformed).2 = [Ev.throwParse] :=
  ⟨rfl, rfl⟩

/-- Claim C4, amended: a frame whose payload cannot be decoded leaves the
entire client state unchanged and emits no event of its own (the decoding
exception propagates out of the message handler); the dispatch loop is not
crashed: the frames delivered after it are processed exactly as they would
have been without it. -/
theorem C4_malformed_tolerated (s : ClientState) (rest : List Frame) :
    (dispatch s Frame.malformed).1 = s ∧
    (dispatch s Frame.malformed).2.filter isEmit = [] ∧
    (runFrames s (Frame.malformed :: rest)).1 = (runFrames s rest).1 ∧
    (runFrames s (Frame.malformed :: rest)).2
      = Ev.throwParse :: (runFrames s rest).2 :=
  ⟨rfl, rfl, rfl, rfl⟩

/-- Claim C5, counterexample: the claim is false as stated. One client
instance that processes a handshake with address a, forwards, processes a
second handshake with address b, and forwards again, sends two forward
envelopes whose from values differ. -/
theorem C5_counterexample :
    (runSteps initialState
      [Step.sock (SocketEvent.message (Frame.msg (Message.binding "a" "c"))),
       Step.call (Call.forward "p" "d1"),
       Step.sock (SocketEvent.message (Frame.msg (Message.binding "b" "c"))),
       Step.call (Call.forward "p" "d2")]).2
      = [Ev.send (Message.forward "p" "a" "d1"),
         Ev.send (Message.forward "p" "b" "d2")] ∧
    ("a" : String) ≠ "b" :=
  ⟨rfl, by decide⟩

/-- Claim C5, amended: every forward call sends from equal to the address
carried by the most recently received handshake, and two forward calls with
no intervening handshake carry identical from values; a later handshake
replaces the binding wholesale, after which forwards carry the new
address. -/
theorem C5_forward_from (s : ClientState) (b : Binding)
    (d1 x1 d2 x2 : String) (hb : s.binding = some b) (ho : s.opened = true) :
    call s (Call.forward d1 x1)
      = (s, [Ev.send (Message.forward d1 b.address x1)]) ∧
    call (call s (Call.forward d1 x1)).1 (Call.forward d2 x2)
      = (s, [Ev.send (Message.forward d2 b.address x2)]) := by
  have e1 : call s (Call.forward d1 x1)
      = (s, [Ev.send (Message.forward d1 b.address x1)]) := by
    simp [call, ho, executeCall, hb]
  refine ⟨e1, ?_⟩
  rw [e1]
  simp [call, ho, executeCall, hb]

/-- Witness for C5 right after the first handshake. -/
theorem C5_forward_from_witness :
    call (afterBinding "a" "c") (Call.forward "p" "d1")
      = (afterBinding "a" "c",
         [Ev.send (Message.forward "p" (Binding.mk "a" "c").address "d1")]) ∧
    call (call (afterBinding "a" "c") (Call.forward "p" "d1")).1
        (Call.forward "q" "d2")
      = (afterBinding "a" "c",
         [Ev.send (Message.forward "q" (Binding.mk "a" "c").address "d2")]) :=
  C5_forward_from (afterBinding "a" "c") (Binding.mk "a" "c")
    "p" "d1" "q" "d2" rfl rfl

/-- Claim C6: a close notification pauses the gate and does nothing else:
every state component except the opened flag, in particular every pending
correlation entry, is untouched, and no completion event is produced; a
call made afterwards is queued with no observable effect; and no step other
than processing a handshake message can reopen the gate, so the queued call
cannot complete before a new handshake. -/
theorem C6_close_pauses (s : ClientState) (c : Call) :
    (handleEvent s SocketEvent.close).1 = { s with opened := false } ∧
    (handleEvent s SocketEvent.close).2 = [] ∧
    (call (handleEvent s SocketEvent.close).1 c).2 = [] ∧
    (call (handleEvent s SocketEvent.close).1 c).1
      = { s with opened := false, queue := s.queue ++ [c] } ∧
    ∀ (u : ClientState) (t : Step), (step u t).1.opened = true →
      u.opened = true ∨ ∃ a cfg,
        t = Step.sock (SocketEvent.message (Frame.msg (Message.binding a cfg))) := by
  have hc := call_closed ({ s with opened := false }) c rfl
  refine ⟨rfl, rfl, ?_, ?_, step_opened_source⟩
  · rw [show (handleEvent s SocketEvent.close).1
        = { s with opened := false } from rfl, hc]
  · rw [show (handleEvent s SocketEvent.close).1
        = { s with opened := false } from rfl, hc]

/-- Claim C7: a register-fail, respectively lookup-fail, response carrying
request_id k rejects exactly the pending entry k with the server-supplied
reason string and removes it; every other pending identifier keeps its
membership, nothing else in the state changes, and no send is performed
(no retry). -/
theorem C7_failure_routing (s : ClientState) (k : Nat) (r1 r2 : String)
    (hk : k ∈ s.pending) :
    (dispatch s (Frame.msg (Message.registerFail k r1))
        = ({ s with pending := s.pending.erase k }, [Ev.rejected k r1]) ∧
      sends (dispatch s (Frame.msg (Message.registerFail k r1))).2 = 0 ∧
      ∀ j, j ≠ k →
        (j ∈ (dispatch s (Frame.msg (Message.registerFail k r1))).1.pending
          ↔ j ∈ s.pending)) ∧
    (dispatch s (Frame.msg (Message.lookupFail k r2))
        = ({ s with pending := s.pending.erase k }, [Ev.rejected k r2]) ∧
      sends (dispatch s (Frame.msg (Message.lookupFail k r2))).2 = 0 ∧
      ∀ j, j ≠ k →
        (j ∈ (dispatch s (Frame.msg (Message.lookupFail k r2))).1.pending
          ↔ j ∈ s.pending)) := by
  have e1 : dispatch s (Frame.msg (Message.registerFail k r1))
      = ({ s with pending := s.pending.erase k }, [Ev.rejected k r1]) := by
    simp [dispatch, deferredReject, hk]
  have e2 : dispatch s (Frame.msg (Message.lookupFail k r2))
      = ({ s with pending := s.pending.erase k }, [Ev.rejected k r2]) := by
    simp [dispatch, deferredReject, hk]
  refine ⟨⟨e1, ?_, ?_⟩, e2, ?_, ?_⟩
  · rw [e1]; rfl
  · intro j hj; rw [e1]; exact List.mem_erase_of_ne hj
  · rw [e2]; rfl
  · intro j hj; rw [e2]; exact List.mem_erase_of_ne hj

/-- Witness for C7 at a state with pending entries 0 and 1. -/
theorem C7_failure_routing_witness :
    (dispatch pendingTwo (Frame.msg (Message.registerFail 1 "boom"))
        = ({ pendingTwo with pending := pendingTwo.pending.erase 1 },
           [Ev.rejected 1 "boom"]) ∧
      sends (dispatch pendingTwo
          (Frame.msg (Message.registerFail 1 "boom"))).2 = 0 ∧
      ∀ j, j ≠ 1 →
        (j ∈ (dispatch pendingTwo
            (Frame.msg (Message.registerFail 1 "boom"))).1.pending
          ↔ j ∈ pendingTwo.pending)) ∧
    (dispatch pendingTwo (Frame.msg (Message.lookupFail 1 "not-found"))
        = ({ pendingTwo with pending := pendingTwo.pending.erase 1 },
           [Ev.rejected 1 "not-found"]) ∧
      sends (dispatch pendingTwo
          (Frame.msg (Message.lookupFail 1 "not-found"))).2 = 0 ∧
      ∀ j, j ≠ 1 →
        (j ∈ (dispatch pendingTwo
            (Frame.msg (Message.lookupFail 1 "not-found"))).1.pending
          ↔ j ∈ pendingTwo.pending)) :=
  C7_failure_routing pendingTwo 1 "boom" "not-found" (by decide)

/-- Claim C8: an inbound message whose discriminant tag is not one of the
known variants falls through the dispatch switch: the state, including the
pending correlation entries, the gate flag and the binding, is returned
unchanged and no event of any kind, in particular no error, is produced. -/
theorem C8_unknown_tag_noop (s : ClientState) (tag : String) :
    dispatch s (Frame.msg (Message.unknownTag tag)) = (s, []) :=
  rfl

/-- Claim C9, counterexample: the claim is false as stated. A forward call
issued on a fresh client, before any binding exists, does not fail fast
with a programmer-misuse error: it produces no event at all and is merely
queued behind the closed gate. -/
theorem C9_counterexample :
    (call initialState (Call.forward "x" "d")).2 = [] ∧
    (call initialState (Call.forward "x" "d")).1
      = { initialState with queue := [Call.forward "x" "d"] } :=
  ⟨rfl, rfl⟩

/-- Claim C9, amended: a forward call made before any binding exists does
not fail and does not corrupt state: in every reachable state without a
binding the gate is closed, so the call is appended to the gate queue with
no observable effect and no send, and its body only runs after a handshake
has assigned the binding. -/
theorem C9_forward_before_binding (s : ClientState) (d x : String)
    (hs : Reached s) (hb : s.binding = none) :
    s.opened = false ∧
    call s (Call.forward d x)
      = ({ s with queue := s.queue ++ [Call.forward d x] }, []) := by
  have hcl : s.opened = false := by
    cases ho : s.opened
    · rfl
    · have hv := reached_GateInv s hs ho
      rw [hb] at hv
      simp at hv
  exact ⟨hcl, call_closed s _ hcl⟩

/-- Witness for C9 at the fresh client. -/
theorem C9_forward_before_binding_witness :
    initialState.opened = false ∧
    call initialState (Call.forward "x" "d")
      = ({ initialState with
            queue := initialState.queue ++ [Call.forward "x" "d"] }, []) :=
  C9_forward_before_binding initialState "x" "d" Reached.init rfl

/-- Claim C10: in every reachable state an open gate implies a defined
binding (onBinding assigns the binding before resuming the barrier, and
nothing else opens it), and therefore no step taken from a reachable state
ever reads an undefined binding: the undefined-binding branch of forward,
address and configuration never fires. -/
theorem C10_binding_defined (s : ClientState) (hs : Reached s) :
    (s.opened = true → s.binding.isSome = true) ∧
    ∀ (t : Step), Ev.throwNoBinding ∉ (step s t).2 := by
  have h := reached_GateInv s hs
  exact ⟨h, fun t => step_no_throwNoBinding s t h⟩

/-- Witness for C10 at the fresh client. -/
theorem C10_binding_defined_witness :
    (initialState.opened = true → initialState.binding.isSome = true) ∧
    ∀ (t : Step), Ev.throwNoBinding ∉ (step initialState t).2 :=
  C10_binding_defined initialState Reached.init
